import Mathlib

/-!
Shallow embedding of the conversation lifecycle engine of
`app/backend/server.py` (AI_Chat_Portal).

Modelling conventions:
* The MongoDB collections `db.conversations` and `db.messages` become two
  Lean lists held in a `Store`; `insert_one` appends at the end,
  `find` is `List.filter` (natural iteration order = insertion order),
  `find_one` is `List.find?`, `update_one` updates the first match
  (`updateFirst`), and `.to_list(1000)` is `List.take 1000`.
* `datetime` timestamps become `Nat`; the ISO-8601 string round-trip of the
  Python code is the identity here and is elided.
* Freshly generated identifiers (`uuid.uuid4()`) and current timestamps are
  explicit parameters of each operation.
* A call to the LLM gateway (`LlmChat(...).send_message`) is an oracle value
  of type `Except String String`: `.ok text` is a successful completion,
  `.error e` is a raised exception with message `e` (Python `str(e)`).
  Operations that the claims observe for "no LLM call made" additionally
  return the list of prompts sent to the gateway.
* `HTTPException(status_code, detail)` becomes `HttpError`.
* Python truthiness tests on optional/string/list fields are translated
  per type: a string is truthy iff nonempty, a list iff nonempty, an
  optional datetime iff present.
-/

namespace ChatPortal

/-- One document of the `messages` collection (`class Message`). -/
structure Message where
  id : String
  conversation_id : String
  role : String
  content : String
  timestamp : Nat
  reactions : List String
  bookmarked : Bool
deriving Repr, DecidableEq

/-- One document of the `conversations` collection (`class Conversation`). -/
structure Conversation where
  id : String
  title : String
  status : String
  summary : Option String
  start_time : Nat
  end_time : Option Nat
  share_token : Option String
deriving Repr, DecidableEq

/-- The two persisted collections. -/
structure Store where
  conversations : List Conversation
  messages : List Message
deriving Repr, DecidableEq

def emptyStore : Store := ⟨[], []⟩

/-- Model of `HTTPException(status_code=..., detail=...)`. -/
structure HttpError where
  status_code : Nat
  detail : String
deriving Repr, DecidableEq

/-- Mongo `update_one`: rewrite the first element satisfying `p`. -/
def updateFirst (p : α → Bool) (f : α → α) : List α → List α
  | [] => []
  | x :: xs => if p x then f x :: xs else x :: updateFirst p f xs

/-- Insert a message into a timestamp-sorted list, after any message with
an equal timestamp (stability). -/
def insertByTimestamp (m : Message) : List Message → List Message
  | [] => [m]
  | x :: xs =>
    if m.timestamp ≤ x.timestamp then m :: x :: xs
    else x :: insertByTimestamp m xs

/-- Model of `sorted(messages, key=lambda x: x['timestamp'])` / `messages.sort(...)`:
Python's stable Timsort, modelled by a stable insertion sort (stable sorts
of the same key agree pointwise, so this is extensionally the same
function). -/
def sortByTimestamp : List Message → List Message
  | [] => []
  | m :: rest => insertByTimestamp m (sortByTimestamp rest)

/-- The message read performed (inline, identically) by `get_conversation`,
`send_message`, `end_conversation`, `get_shared_conversation` and
`export_conversation`:
`db.messages.find({"conversation_id": cid}).to_list(1000)` followed by a
sort on `timestamp`. -/
def readMessages (s : Store) (cid : String) : List Message :=
  sortByTimestamp ((s.messages.filter (fun m => m.conversation_id == cid)).take 1000)

/-- Function `call_llm`: returns the completion, or on any exception the string
`"Error generating response: {e}"`; the prompt sent is the content of the
last history entry (`messages[-1]`), or `""` for an empty history.
Second component: the prompts sent to the gateway. -/
def call_llm (messages : List (String × String)) (llm : Except String String) :
    String × List String :=
  let prompt := ((messages.getLast?).map (fun m => m.2)).getD ""
  match llm with
  | .ok response => (response, [prompt])
  | .error e => ("Error generating response: " ++ e, [prompt])

/-- The three fixed prompts returned for an empty history. -/
def defaultSuggestions : List String :=
  ["Tell me about yourself", "What can you help me with?", "Explain a complex topic simply"]

/-- Python `str.split('\n')`: split at every newline, keeping empty parts
(`"".split('\n') == [""]`). -/
def splitLinesAux : List Char → List Char → List String
  | [], acc => [String.mk acc.reverse]
  | c :: cs, acc =>
    if c = '\n' then String.mk acc.reverse :: splitLinesAux cs []
    else splitLinesAux cs (c :: acc)

def splitLines (s : String) : List String := splitLinesAux s.data []

/-- The whitespace test of Python `str.strip()` (ASCII whitespace). -/
def isSpaceChar (c : Char) : Bool :=
  c = ' ' || c = '\t' || c = '\n' || c = '\r' || c = '\x0b' || c = '\x0c'

/-- Python `str.strip()`: drop leading and trailing whitespace. -/
def pyStrip (s : String) : String :=
  String.mk (((s.data.dropWhile isSpaceChar).reverse.dropWhile isSpaceChar).reverse)

/-- Python `str.startswith('#')`. -/
def startsWithHash (s : String) : Bool :=
  match s.data with
  | [] => false
  | c :: _ => c = '#'

/-- The suggestion-parsing step of `generate_suggestions`:
`[s.strip() for s in response.split('\n') if s.strip() and not s.strip().startswith('#')][:3]`. -/
def parseSuggestions (response : String) : List String :=
  (((splitLines response).map pyStrip).filter
    (fun t => !(t == "") && !(startsWithHash t))).take 3

/-- Function `generate_suggestions`: empty history short-circuits to the defaults with
no LLM call; otherwise the last up-to-3 turns build the prompt, a successful
completion is parsed by `parseSuggestions`, and any exception yields `[]`.
Second component: the prompts sent to the gateway. -/
def generate_suggestions (conversation_history : List (String × String))
    (llm : Except String String) : List String × List String :=
  match conversation_history with
  | [] => (defaultSuggestions, [])
  | _ =>
    let recent :=
      if conversation_history.length ≥ 3 then
        conversation_history.drop (conversation_history.length - 3)
      else conversation_history
    let context := String.intercalate "\n"
      (recent.map (fun m => m.1 ++ ": " ++ m.2))
    let prompt := "Recent conversation:\n" ++ context ++
      "\n\nGenerate 3 relevant follow-up questions:"
    match llm with
    | .ok response => (parseSuggestions response, [prompt])
    | .error _ => ([], [prompt])

/-- Insert a conversation into a start-time-descending list, after any
conversation with an equal start time (stability, `reverse=True`). -/
def insertByStartTimeDesc (c : Conversation) : List Conversation → List Conversation
  | [] => [c]
  | x :: xs =>
    if x.start_time < c.start_time then c :: x :: xs
    else x :: insertByStartTimeDesc c xs

/-- The stable descending-by-`start_time` sort of `get_conversations`
(`conversations.sort(key=..., reverse=True)`). -/
def sortByStartTimeDesc : List Conversation → List Conversation
  | [] => []
  | c :: rest => insertByStartTimeDesc c (sortByStartTimeDesc rest)

/-- Endpoint `get_conversations` (`GET /api/conversations`):
`db.conversations.find({}).to_list(1000)`, then sort by `start_time`
descending (stable, `reverse=True`). -/
def get_conversations (s : Store) : List Conversation :=
  sortByStartTimeDesc (s.conversations.take 1000)

/-- Response shape of `get_conversation`. -/
structure ConversationWithMessages where
  conversation : Conversation
  messages : List Message
  suggestions : List String
deriving Repr, DecidableEq

/-- Endpoint `get_conversation` (`GET /api/conversations/{id}`): 404 when absent;
otherwise the conversation, its messages sorted by timestamp, and fresh
suggestions when the conversation is active and has at least one message. -/
def get_conversation (s : Store) (conversation_id : String)
    (llm : Except String String) : Except HttpError ConversationWithMessages :=
  match s.conversations.find? (fun c => c.id == conversation_id) with
  | none => .error ⟨404, "Conversation not found"⟩
  | some conv =>
    let messages := readMessages s conversation_id
    let suggestions :=
      if conv.status == "active" && !messages.isEmpty then
        (generate_suggestions (messages.map (fun m => (m.role, m.content))) llm).1
      else []
    .ok ⟨conv, messages, suggestions⟩

/-- Endpoint `create_conversation` (`POST /api/conversations`): inserts a fresh
conversation with `status = "active"`, no summary, no end time, no share
token; returns it. -/
def create_conversation (s : Store) (title : String) (newId : String)
    (now : Nat) : Conversation × Store :=
  let conv : Conversation := ⟨newId, title, "active", none, now, none, none⟩
  (conv, { s with conversations := s.conversations ++ [conv] })

/-- Endpoint `send_message` (`POST /api/conversations/{id}/messages`): 404 when the
conversation is absent, 400 when its status is not `"active"`; otherwise
persists the user message, reads the (capped, sorted) history, calls the LLM
(failures swallowed into the content by `call_llm`), persists and returns
the assistant message. -/
def send_message (s : Store) (conversation_id : String) (content : String)
    (userId : String) (userTs : Nat) (llm : Except String String)
    (aiId : String) (aiTs : Nat) : Except HttpError Message × Store :=
  match s.conversations.find? (fun c => c.id == conversation_id) with
  | none => (.error ⟨404, "Conversation not found"⟩, s)
  | some conv =>
    if conv.status != "active" then
      (.error ⟨400, "Conversation has ended"⟩, s)
    else
      let user_msg : Message := ⟨userId, conversation_id, "user", content, userTs, [], false⟩
      let s1 : Store := { s with messages := s.messages ++ [user_msg] }
      let lm_messages := (readMessages s1 conversation_id).map
        (fun m => (m.role, m.content))
      let ai_response := (call_llm lm_messages llm).1
      let ai_msg : Message := ⟨aiId, conversation_id, "assistant", ai_response, aiTs, [], false⟩
      (.ok ai_msg, { s1 with messages := s1.messages ++ [ai_msg] })

/-- The transcript `end_conversation` feeds to the summarizer:
the capped, sorted messages rendered as "role: content" lines. -/
def conversationText (s : Store) (conversation_id : String) : String :=
  String.intercalate "\n"
    ((readMessages s conversation_id).map (fun m => m.role ++ ": " ++ m.content))

/-- The summary text `end_conversation` stores: the LLM completion, or on
an exception the fallback `"Error generating summary: {e}"`
(the `try`/`except` around the summarizer call). -/
def summaryText : Except String String → String
  | .ok text => text
  | .error e => "Error generating summary: " ++ e

/-- The `$set` document of the `end` transition: status, summary and end
time written together. -/
def endedConv (summary : String) (now : Nat) (c : Conversation) : Conversation :=
  { c with status := "ended", summary := some summary, end_time := some now }

/-- Endpoint `end_conversation` (`POST /api/conversations/{id}/end`): 404 when absent,
400 when already ended; otherwise summarizes the transcript (an exception
yields `"Error generating summary: {e}"` instead of aborting), then
atomically sets `status = "ended"`, the summary and the end time, and
returns the updated record. -/
def end_conversation (s : Store) (conversation_id : String)
    (llm : Except String String) (now : Nat) :
    Except HttpError Conversation × Store :=
  match s.conversations.find? (fun c => c.id == conversation_id) with
  | none => (.error ⟨404, "Conversation not found"⟩, s)
  | some conv =>
    if conv.status == "ended" then
      (.error ⟨400, "Conversation already ended"⟩, s)
    else
      let setFields := endedConv (summaryText llm) now
      let newConversations :=
        updateFirst (fun c => c.id == conversation_id) setFields s.conversations
      (.ok (setFields conv), { s with conversations := newConversations })

/-- Response shape of `query_conversations`. -/
structure QueryResponse where
  answer : String
  relevant_conversations : List Conversation
  suggestions : List String
deriving Repr, DecidableEq

/-- The ended conversations `query_conversations` considers:
`db.conversations.find({"status": "ended"}).to_list(1000)`. -/
def queryEnded (s : Store) : List Conversation :=
  (s.conversations.filter (fun c => c.status == "ended")).take 1000

/-- Endpoint `query_conversations` (`POST /api/conversations/query`): with no ended
conversation, the fixed answer with empty result sets and no LLM call;
otherwise asks the LLM over a numbered `(title, summary)` context (an
exception yields `"Error processing query: {e}"` as the answer) and returns
the first 5 considered conversations as references.
Second component: the prompts sent to the gateway. -/
def query_conversations (s : Store) (query : String)
    (llm : Except String String) : QueryResponse × List String :=
  let conversations := queryEnded s
  if conversations.isEmpty then
    (⟨"No past conversations found to analyze.", [], []⟩, [])
  else
    let context := String.intercalate "\n\n"
      (conversations.enum.map (fun ic =>
        "Conversation " ++ toString (ic.1 + 1) ++ " (Title: " ++ ic.2.title ++
        "):\n" ++ (ic.2.summary.getD "No summary available")))
    let prompt := "Past conversations:\n\n" ++ context ++ "\n\nUser question: " ++
      query ++ "\n\nProvide a clear answer:"
    let answer :=
      match llm with
      | .ok text => text
      | .error e => "Error processing query: " ++ e
    (⟨answer, conversations.take 5, []⟩, [prompt])

/-- The reaction toggle of `react_to_message`: Python
`reactions.remove(r)` removes the first occurrence, `reactions.append(r)`
appends at the end. -/
def toggleReaction (reaction : String) (reactions : List String) : List String :=
  if reaction ∈ reactions then reactions.erase reaction
  else reactions ++ [reaction]

/-- The `$set` document of `react_to_message`. -/
def setReactions (l : List String) (m : Message) : Message :=
  { m with reactions := l }

/-- The `$set` document of `bookmark_message`. -/
def setBookmarked (b : Bool) (m : Message) : Message :=
  { m with bookmarked := b }

/-- Endpoint `react_to_message` (`POST /api/messages/{id}/react`): 404 when the
message is absent; otherwise toggles the reaction symbol and stores and
returns the updated reaction list. -/
def react_to_message (s : Store) (message_id : String) (reaction : String) :
    Except HttpError (List String) × Store :=
  match s.messages.find? (fun m => m.id == message_id) with
  | none => (.error ⟨404, "Message not found"⟩, s)
  | some msg =>
    let reactions := toggleReaction reaction msg.reactions
    let newMessages := updateFirst (fun m => m.id == message_id)
      (setReactions reactions) s.messages
    (.ok reactions, { s with messages := newMessages })

/-- Endpoint `bookmark_message` (`POST /api/messages/{id}/bookmark`): 404 when the
message is absent; otherwise flips and returns the bookmark flag. -/
def bookmark_message (s : Store) (message_id : String) :
    Except HttpError Bool × Store :=
  match s.messages.find? (fun m => m.id == message_id) with
  | none => (.error ⟨404, "Message not found"⟩, s)
  | some msg =>
    let bookmarked := !msg.bookmarked
    let newMessages := updateFirst (fun m => m.id == message_id)
      (setBookmarked bookmarked) s.messages
    (.ok bookmarked, { s with messages := newMessages })

/-- Endpoint `share_conversation` (`POST /api/conversations/{id}/share`): 404 when the
conversation is absent; otherwise overwrites the share token with a fresh
one and returns it. -/
def share_conversation (s : Store) (conversation_id : String)
    (newToken : String) : Except HttpError String × Store :=
  match s.conversations.find? (fun c => c.id == conversation_id) with
  | none => (.error ⟨404, "Conversation not found"⟩, s)
  | some _ =>
    let newConversations := updateFirst (fun c => c.id == conversation_id)
      (fun c => { c with share_token := some newToken }) s.conversations
    (.ok newToken, { s with conversations := newConversations })

/-- Endpoint `get_shared_conversation` (`GET /api/shared/{token}`): 404 when no
conversation carries the token; otherwise the conversation and its sorted
messages. -/
def get_shared_conversation (s : Store) (share_token : String) :
    Except HttpError (Conversation × List Message) :=
  match s.conversations.find? (fun c => c.share_token == some share_token) with
  | none => .error ⟨404, "Shared conversation not found"⟩
  | some conv => .ok (conv, readMessages s conv.id)

/-- One element of the reportlab `story` list of the PDF export branch
(flowable dimensions are a float layout detail and are not modelled). -/
inductive DocElem where
  | paragraph : String → String → DocElem
  | spacer : DocElem
deriving Repr, DecidableEq

/-- The body produced by `export_conversation`. -/
inductive ExportResult where
  | json : Conversation → List Message → ExportResult
  | markdown : String → ExportResult
  | pdf : List DocElem → ExportResult
deriving Repr, DecidableEq

/-- The markdown rendering branch of `export_conversation`. -/
def renderMarkdown (conv : Conversation) (messages : List Message) : String :=
  let header := "# " ++ conv.title ++ "\n\n" ++
    "**Started:** " ++ toString conv.start_time ++ "\n" ++
    (match conv.end_time with
     | some t => "**Ended:** " ++ toString t ++ "\n"
     | none => "") ++
    (match conv.summary with
     | some su => if su == "" then "" else "\n**Summary:** " ++ su ++ "\n"
     | none => "") ++
    "\n---\n\n"
  messages.foldl (fun acc msg =>
    let role_icon := if msg.role == "user" then "👤" else "🤖"
    acc ++ "### " ++ role_icon ++ " " ++ msg.role.capitalize ++ "\n\n" ++
    msg.content ++ "\n\n" ++
    (if msg.bookmarked then "🔖 *Bookmarked*\n\n" else "") ++
    (if msg.reactions.isEmpty then ""
     else "Reactions: " ++ String.intercalate " " msg.reactions ++ "\n\n"))
    header

/-- The reportlab `story` built by the PDF branch of `export_conversation`. -/
def renderPdfStory (conv : Conversation) (messages : List Message) : List DocElem :=
  [DocElem.paragraph conv.title "CustomTitle", DocElem.spacer] ++
  (match conv.summary with
   | some su => if su == "" then []
       else [DocElem.paragraph ("<b>Summary:</b> " ++ su) "Normal", DocElem.spacer]
   | none => []) ++
  messages.flatMap (fun msg =>
    [DocElem.paragraph ("<b>" ++ msg.role.capitalize ++ ":</b>") "Heading3",
     DocElem.paragraph msg.content "Normal", DocElem.spacer])

/-- Endpoint `export_conversation` (`POST /api/conversations/{id}/export`): 404 when
the conversation is absent; then dispatches on the `format` field, accepting
exactly `"json"`, `"markdown"` and `"pdf"` and rejecting anything else with
400 "Invalid export format". -/
def export_conversation (s : Store) (conversation_id : String)
    (format : String) : Except HttpError ExportResult :=
  match s.conversations.find? (fun c => c.id == conversation_id) with
  | none => .error ⟨404, "Conversation not found"⟩
  | some conv =>
    let messages := readMessages s conversation_id
    if format == "json" then
      .ok (.json conv messages)
    else if format == "markdown" then
      .ok (.markdown (renderMarkdown conv messages))
    else if format == "pdf" then
      .ok (.pdf (renderPdfStory conv messages))
    else
      .error ⟨400, "Invalid export format"⟩

/-- The stores reachable from the empty store by the core mutating
operations (create, appendUserMessage, end, react, bookmark, share),
over all parameters and LLM outcomes; failed operations return the store
unchanged and are included. -/
inductive Reachable : Store → Prop where
  | init : Reachable emptyStore
  | create (s title newId now) : Reachable s →
      Reachable (create_conversation s title newId now).2
  | send (s cid content userId userTs llm aiId aiTs) : Reachable s →
      Reachable (send_message s cid content userId userTs llm aiId aiTs).2
  | endConv (s cid llm now) : Reachable s →
      Reachable (end_conversation s cid llm now).2
  | react (s mid r) : Reachable s →
      Reachable (react_to_message s mid r).2
  | bookmark (s mid) : Reachable s →
      Reachable (bookmark_message s mid).2
  | share (s cid tok) : Reachable s →
      Reachable (share_conversation s cid tok).2

/-! ### Helper lemmas about the store primitives -/

theorem mem_updateFirst {α : Type} {p : α → Bool} {f : α → α} {l : List α} {y : α}
    (h : y ∈ updateFirst p f l) : y ∈ l ∨ ∃ x, x ∈ l ∧ p x = true ∧ y = f x := by
  induction l with
  | nil => simp [updateFirst] at h
  | cons a as ih =>
    rw [updateFirst] at h
    by_cases hp : p a = true
    · rw [if_pos hp] at h
      rcases List.mem_cons.1 h with h | h
      · exact Or.inr ⟨a, List.mem_cons_self a as, hp, h⟩
      · exact Or.inl (List.mem_cons_of_mem _ h)
    · rw [if_neg hp] at h
      rcases List.mem_cons.1 h with h | h
      · exact Or.inl (h ▸ List.mem_cons_self a as)
      · rcases ih h with h' | ⟨x, hx, hpx, hy⟩
        · exact Or.inl (List.mem_cons_of_mem _ h')
        · exact Or.inr ⟨x, List.mem_cons_of_mem _ hx, hpx, hy⟩

theorem forall_mem_updateFirst {α : Type} {p : α → Bool} {f : α → α} {l : List α}
    {P : α → Prop} (hl : ∀ x ∈ l, P x) (hf : ∀ x ∈ l, P x → P (f x)) :
    ∀ y ∈ updateFirst p f l, P y := by
  intro y hy
  rcases mem_updateFirst hy with h | ⟨x, hx, _, rfl⟩
  · exact hl y h
  · exact hf x hx (hl x hx)

theorem find?_updateFirst {α : Type} {p : α → Bool} {f : α → α} {l : List α} {x : α}
    (h : l.find? p = some x) (hf : p (f x) = true) :
    (updateFirst p f l).find? p = some (f x) := by
  induction l with
  | nil => simp at h
  | cons a as ih =>
    by_cases hp : p a = true
    · rw [List.find?_cons_of_pos _ hp] at h
      injection h with h
      subst h
      rw [updateFirst, if_pos hp, List.find?_cons_of_pos _ hf]
    · rw [List.find?_cons_of_neg _ hp] at h
      rw [updateFirst, if_neg hp, List.find?_cons_of_neg _ hp]
      exact ih h

theorem map_updateFirst {α β : Type} {p : α → Bool} {f : α → α} (g : α → β)
    {l : List α} (h : ∀ x, g (f x) = g x) :
    (updateFirst p f l).map g = l.map g := by
  induction l with
  | nil => rfl
  | cons a as ih =>
    rw [updateFirst]
    by_cases hp : p a = true
    · rw [if_pos hp]
      simp [h a, ih]
    · rw [if_neg hp]
      simp [ih]

/-! ### The reaction toggle -/

theorem toggleReaction_nodup (r : String) (l : List String) (h : l.Nodup) :
    (toggleReaction r l).Nodup := by
  unfold toggleReaction
  by_cases hr : r ∈ l
  · rw [if_pos hr]
    exact List.Nodup.erase r h
  · rw [if_neg hr]
    simp [List.nodup_append, h, hr]

theorem toggleReaction_twice_perm (r : String) (l : List String) (h : l.Nodup) :
    (toggleReaction r (toggleReaction r l)).Perm l := by
  unfold toggleReaction
  by_cases hr : r ∈ l
  · rw [if_pos hr]
    have hne : r ∉ l.erase r := fun hmem => ((List.Nodup.mem_erase_iff h).1 hmem).1 rfl
    rw [if_neg hne]
    exact (List.perm_append_singleton r (l.erase r)).trans (List.perm_cons_erase hr).symm
  · rw [if_neg hr]
    have hmem : r ∈ l ++ [r] := by simp
    rw [if_pos hmem, List.erase_append_right _ hr]
    simp

/-! ### Store invariants preserved by every core operation -/

/-- The lifecycle invariant of one conversation record: `status = "ended"`
iff both the end timestamp and the summary are set. -/
def ConvOk (c : Conversation) : Prop :=
  c.status = "ended" ↔ (c.end_time.isSome ∧ c.summary.isSome)

/-- The store invariant: every conversation satisfies `ConvOk` and every
message has a duplicate-free reaction list. -/
def StoreInv (s : Store) : Prop :=
  (∀ c ∈ s.conversations, ConvOk c) ∧ (∀ m ∈ s.messages, m.reactions.Nodup)

theorem StoreInv_empty : StoreInv emptyStore :=
  ⟨by intro c hc; simp [emptyStore] at hc, by intro m hm; simp [emptyStore] at hm⟩

theorem StoreInv_create (s : Store) (title nid : String) (now : Nat)
    (h : StoreInv s) : StoreInv (create_conversation s title nid now).2 := by
  obtain ⟨hc, hm⟩ := h
  refine ⟨?_, hm⟩
  intro c hcmem
  simp only [create_conversation, List.mem_append, List.mem_singleton] at hcmem
  rcases hcmem with hcmem | rfl
  · exact hc c hcmem
  · simp [ConvOk]

theorem StoreInv_send (s : Store) (cid content uid : String) (uts : Nat)
    (llm : Except String String) (aid : String) (ats : Nat) (h : StoreInv s) :
    StoreInv (send_message s cid content uid uts llm aid ats).2 := by
  obtain ⟨hc, hm⟩ := h
  unfold send_message
  split
  · exact ⟨hc, hm⟩
  · split
    · exact ⟨hc, hm⟩
    · refine ⟨hc, ?_⟩
      intro m hmmem
      simp only [List.mem_append, List.mem_singleton] at hmmem
      rcases hmmem with (hmmem | rfl) | rfl
      · exact hm m hmmem
      · exact List.nodup_nil
      · exact List.nodup_nil

theorem StoreInv_end (s : Store) (cid : String) (llm : Except String String)
    (now : Nat) (h : StoreInv s) : StoreInv (end_conversation s cid llm now).2 := by
  obtain ⟨hc, hm⟩ := h
  unfold end_conversation
  split
  · exact ⟨hc, hm⟩
  · split
    · exact ⟨hc, hm⟩
    · refine ⟨?_, hm⟩
      refine forall_mem_updateFirst hc ?_
      intro x _ _
      simp [ConvOk, endedConv]

theorem StoreInv_react (s : Store) (mid r : String) (h : StoreInv s) :
    StoreInv (react_to_message s mid r).2 := by
  obtain ⟨hc, hm⟩ := h
  unfold react_to_message
  cases hfind : s.messages.find? (fun m => m.id == mid) with
  | none => exact ⟨hc, hm⟩
  | some msg =>
    refine ⟨hc, ?_⟩
    refine forall_mem_updateFirst hm ?_
    intro x _ _
    exact toggleReaction_nodup r msg.reactions (hm msg (List.mem_of_find?_eq_some hfind))

theorem StoreInv_bookmark (s : Store) (mid : String) (h : StoreInv s) :
    StoreInv (bookmark_message s mid).2 := by
  obtain ⟨hc, hm⟩ := h
  unfold bookmark_message
  cases hfind : s.messages.find? (fun m => m.id == mid) with
  | none => exact ⟨hc, hm⟩
  | some msg =>
    refine ⟨hc, ?_⟩
    refine forall_mem_updateFirst hm ?_
    intro x _ him
    exact him

theorem StoreInv_share (s : Store) (cid tok : String) (h : StoreInv s) :
    StoreInv (share_conversation s cid tok).2 := by
  obtain ⟨hc, hm⟩ := h
  unfold share_conversation
  cases hfind : s.conversations.find? (fun c => c.id == cid) with
  | none => exact ⟨hc, hm⟩
  | some conv =>
    refine ⟨?_, hm⟩
    refine forall_mem_updateFirst hc ?_
    intro x _ hx
    exact hx

theorem reachable_StoreInv {s : Store} (h : Reachable s) : StoreInv s := by
  induction h with
  | init => exact StoreInv_empty
  | create s title nid now _ ih => exact StoreInv_create s title nid now ih
  | send s cid content uid uts llm aid ats _ ih =>
      exact StoreInv_send s cid content uid uts llm aid ats ih
  | endConv s cid llm now _ ih => exact StoreInv_end s cid llm now ih
  | react s mid r _ ih => exact StoreInv_react s mid r ih
  | bookmark s mid _ ih => exact StoreInv_bookmark s mid ih
  | share s cid tok _ ih => exact StoreInv_share s cid tok ih

/-! ### Effect of each operation on the lifecycle fields -/

/-- The three lifecycle fields of a conversation record. -/
def lifecycleFields (c : Conversation) : String × Option String × Option Nat :=
  (c.status, c.summary, c.end_time)

theorem send_message_conversations (s : Store) (cid content uid : String)
    (uts : Nat) (llm : Except String String) (aid : String) (ats : Nat) :
    (send_message s cid content uid uts llm aid ats).2.conversations = s.conversations := by
  unfold send_message
  split
  · rfl
  · split <;> rfl

theorem react_to_message_conversations (s : Store) (mid r : String) :
    (react_to_message s mid r).2.conversations = s.conversations := by
  unfold react_to_message
  split <;> rfl

theorem bookmark_message_conversations (s : Store) (mid : String) :
    (bookmark_message s mid).2.conversations = s.conversations := by
  unfold bookmark_message
  split <;> rfl

theorem share_conversation_lifecycle (s : Store) (cid tok : String) :
    ((share_conversation s cid tok).2.conversations.map lifecycleFields)
      = s.conversations.map lifecycleFields := by
  unfold share_conversation
  split
  · rfl
  · exact map_updateFirst lifecycleFields (fun x => rfl)

theorem end_conversation_ok_fields (s : Store) (cid : String)
    (llm : Except String String) (now : Nat) (c1 : Conversation) (s1 : Store)
    (h : end_conversation s cid llm now = (.ok c1, s1)) :
    c1.status = "ended" ∧ c1.summary.isSome ∧ c1.end_time = some now := by
  unfold end_conversation at h
  split at h
  · exact absurd h (by simp)
  · split at h
    · exact absurd h (by simp)
    · rw [Prod.mk.injEq] at h
      obtain ⟨h1, _⟩ := h
      injection h1 with h1
      subst h1
      exact ⟨rfl, rfl, rfl⟩

/-- The statement of claim C1 for one store. -/
def ConversationInvariantProp (s : Store) : Prop :=
  (∀ c ∈ s.conversations, (c.status = "ended" ↔ (c.end_time.isSome ∧ c.summary.isSome)))
  ∧ (∀ title nid now,
      (create_conversation s title nid now).1.status = "active"
      ∧ (create_conversation s title nid now).1.summary = none
      ∧ (create_conversation s title nid now).1.end_time = none
      ∧ (create_conversation s title nid now).2.conversations.map lifecycleFields
          = s.conversations.map lifecycleFields ++ [("active", none, none)])
  ∧ (∀ cid content uid uts llm aid ats,
      (send_message s cid content uid uts llm aid ats).2.conversations = s.conversations)
  ∧ (∀ mid r, (react_to_message s mid r).2.conversations = s.conversations)
  ∧ (∀ mid, (bookmark_message s mid).2.conversations = s.conversations)
  ∧ (∀ cid tok, (share_conversation s cid tok).2.conversations.map lifecycleFields
      = s.conversations.map lifecycleFields)
  ∧ (∀ cid llm now c1 s1, end_conversation s cid llm now = (.ok c1, s1) →
      c1.status = "ended" ∧ c1.summary.isSome ∧ c1.end_time = some now)

/-- C1: in every store reachable by the core operations, a conversation has
`status = "ended"` iff both its end timestamp and its summary are set;
`create` initializes `status = "active"` with no summary and no end
timestamp; and among the operations only `end` changes the lifecycle
fields, setting all three together. -/
theorem conversation_lifecycle_invariant (s : Store) (h : Reachable s) :
    ConversationInvariantProp s := by
  refine ⟨fun c hcmem => (reachable_StoreInv h).1 c hcmem, ?_, ?_, ?_, ?_, ?_, ?_⟩
  · intro title nid now
    refine ⟨rfl, rfl, rfl, ?_⟩
    simp [create_conversation, lifecycleFields]
  · intro cid content uid uts llm aid ats
    exact send_message_conversations s cid content uid uts llm aid ats
  · intro mid r
    exact react_to_message_conversations s mid r
  · intro mid
    exact bookmark_message_conversations s mid
  · intro cid tok
    exact share_conversation_lifecycle s cid tok
  · intro cid llm now c1 s1 hend
    exact end_conversation_ok_fields s cid llm now c1 s1 hend

/-- A concrete reachable store holding only the freshly created
conversation "Demo" (id `c1`, active, no messages). -/
def activeStore : Store := (create_conversation emptyStore "Demo" "c1" 0).2

theorem activeStore_reachable : Reachable activeStore :=
  Reachable.create _ _ _ _ Reachable.init

/-- A small concrete reachable store: the conversation "Demo" (id `c1`,
active) holding one user/assistant message pair (`m1`, `m2`). -/
def demoStore : Store :=
  (send_message activeStore "c1" "Hello" "m1" 1 (.ok "Hi there") "m2" 2).2

theorem demoStore_reachable : Reachable demoStore :=
  Reachable.send _ _ _ _ _ _ _ _ activeStore_reachable

/-- Witness for C1: the invariant holds at the concrete reachable store
`demoStore`. -/
theorem conversation_lifecycle_invariant_witness : ConversationInvariantProp demoStore :=
  conversation_lifecycle_invariant demoStore demoStore_reachable

/-- Store `demoStore` after its conversation has been ended (summary
"A short chat.", end time 5). -/
def endedStore : Store := (end_conversation demoStore "c1" (.ok "A short chat.") 5).2

/-- C2: `appendUserMessage` fails with NotFound (404) when no conversation
with the given id exists and with InvalidState (400, "Conversation has
ended") when the conversation's status is not `"active"`; in both failure
cases the store — in particular the message collection — is returned
unchanged. -/
theorem append_message_failure_modes (s : Store) (cid content uid : String)
    (uts : Nat) (llm : Except String String) (aid : String) (ats : Nat) :
    ((∀ c ∈ s.conversations, c.id ≠ cid) →
      send_message s cid content uid uts llm aid ats =
        (.error ⟨404, "Conversation not found"⟩, s))
    ∧ (∀ conv, s.conversations.find? (fun c => c.id == cid) = some conv →
        conv.status ≠ "active" →
        send_message s cid content uid uts llm aid ats =
          (.error ⟨400, "Conversation has ended"⟩, s)) := by
  constructor
  · intro h
    have hfind : s.conversations.find? (fun c => c.id == cid) = none :=
      List.find?_eq_none.mpr (fun x hx => by simpa using h x hx)
    unfold send_message
    rw [hfind]
  · intro conv hfind hstatus
    have hcond : (conv.status != "active") = true := bne_iff_ne.mpr hstatus
    unfold send_message
    rw [hfind]
    simp [hcond]

/-- Witness for C2: on the empty store appending is NotFound; on a store
whose only conversation has been ended, appending is InvalidState; both
leave the store unchanged. -/
theorem append_message_failure_modes_witness :
    send_message emptyStore "c9" "Hi" "m1" 0 (.ok "r") "m2" 1 =
      (.error ⟨404, "Conversation not found"⟩, emptyStore)
    ∧ send_message endedStore "c1" "Hi" "m3" 6 (.ok "r") "m4" 7 =
      (.error ⟨400, "Conversation has ended"⟩, endedStore) :=
  ⟨(append_message_failure_modes emptyStore "c9" "Hi" "m1" 0 (.ok "r") "m2" 1).1
      (by intro c hc; simp [emptyStore] at hc),
   (append_message_failure_modes _ "c1" "Hi" "m3" 6 (.ok "r") "m4" 7).2
      ⟨"c1", "Demo", "ended", some "A short chat.", 0, some 5, none⟩
      (by rfl) (by decide)⟩

/-- C3: when the conversation exists and is active but the LLM call raises
an exception `e`, `appendUserMessage` still succeeds: it persists the user
message, then persists and returns an assistant message whose content is
the error-describing string `"Error generating response: " ++ e`. -/
theorem llm_failure_swallowed_into_reply (s : Store) (cid content uid : String)
    (uts : Nat) (e aid : String) (ats : Nat) (conv : Conversation)
    (hfind : s.conversations.find? (fun c => c.id == cid) = some conv)
    (hactive : conv.status = "active") :
    send_message s cid content uid uts (.error e) aid ats =
      (.ok ⟨aid, cid, "assistant", "Error generating response: " ++ e, ats, [], false⟩,
       ⟨s.conversations,
        s.messages ++ [⟨uid, cid, "user", content, uts, [], false⟩,
          ⟨aid, cid, "assistant", "Error generating response: " ++ e, ats, [], false⟩]⟩) := by
  have hcond : (conv.status != "active") = false := by
    simp [hactive]
  unfold send_message
  rw [hfind]
  simp [hcond, call_llm]

/-- Witness for C3: on `activeStore` with a failing LLM, the append returns
the error-describing assistant message and both messages are persisted. -/
theorem llm_failure_swallowed_into_reply_witness :
    send_message activeStore "c1" "Hello" "m1" 1 (.error "boom") "m2" 2 =
      (.ok ⟨"m2", "c1", "assistant", "Error generating response: boom", 2, [], false⟩,
       ⟨[⟨"c1", "Demo", "active", none, 0, none, none⟩],
        [⟨"m1", "c1", "user", "Hello", 1, [], false⟩,
         ⟨"m2", "c1", "assistant", "Error generating response: boom", 2, [], false⟩]⟩) :=
  llm_failure_swallowed_into_reply activeStore "c1" "Hello" "m1" 1 "boom" "m2" 2
    ⟨"c1", "Demo", "active", none, 0, none, none⟩ rfl rfl

/-- C4: ending a not-yet-ended conversation succeeds and stores the summary
and end timestamp; a second `end` call on the result fails with
InvalidState (400, "Conversation already ended") and returns the store
unchanged, so the first-set summary and end timestamp remain. -/
theorem end_conversation_twice (s : Store) (cid : String)
    (llm1 llm2 : Except String String) (t1 t2 : Nat) (conv : Conversation)
    (hfind : s.conversations.find? (fun c => c.id == cid) = some conv)
    (hnotended : conv.status ≠ "ended") :
    ∃ c1 s1,
      end_conversation s cid llm1 t1 = (.ok c1, s1)
      ∧ s1.conversations.find? (fun c => c.id == cid) = some c1
      ∧ c1.status = "ended" ∧ c1.summary = some (summaryText llm1)
      ∧ c1.end_time = some t1
      ∧ end_conversation s1 cid llm2 t2 =
          (.error ⟨400, "Conversation already ended"⟩, s1) := by
  have hcond : (conv.status == "ended") = false := by
    simp [hnotended]
  have hp := List.find?_some hfind
  have h1 : end_conversation s cid llm1 t1 =
      (.ok (endedConv (summaryText llm1) t1 conv),
       ⟨updateFirst (fun c => c.id == cid) (endedConv (summaryText llm1) t1)
          s.conversations, s.messages⟩) := by
    unfold end_conversation
    rw [hfind]
    simp [hcond]
  have h2 : (updateFirst (fun c => c.id == cid) (endedConv (summaryText llm1) t1)
      s.conversations).find? (fun c => c.id == cid) =
      some (endedConv (summaryText llm1) t1 conv) :=
    find?_updateFirst hfind hp
  have h6 : end_conversation
      ⟨updateFirst (fun c => c.id == cid) (endedConv (summaryText llm1) t1)
         s.conversations, s.messages⟩ cid llm2 t2 =
      (.error ⟨400, "Conversation already ended"⟩,
       ⟨updateFirst (fun c => c.id == cid) (endedConv (summaryText llm1) t1)
          s.conversations, s.messages⟩) := by
    unfold end_conversation
    rw [h2]
    simp [endedConv]
  exact ⟨endedConv (summaryText llm1) t1 conv,
    ⟨updateFirst (fun c => c.id == cid) (endedConv (summaryText llm1) t1)
       s.conversations, s.messages⟩,
    h1, h2, rfl, rfl, rfl, h6⟩

/-- Witness for C4: ending `demoStore`'s conversation and then ending it
again; the second call fails and keeps the first call's summary and end
time. -/
theorem end_conversation_twice_witness :
    ∃ c1 s1,
      end_conversation demoStore "c1" (.ok "Summary one.") 5 = (.ok c1, s1)
      ∧ s1.conversations.find? (fun c => c.id == "c1") = some c1
      ∧ c1.status = "ended" ∧ c1.summary = some (summaryText (.ok "Summary one."))
      ∧ c1.end_time = some 5
      ∧ end_conversation s1 "c1" (.ok "Summary two.") 6 =
          (.error ⟨400, "Conversation already ended"⟩, s1) :=
  end_conversation_twice demoStore "c1" (.ok "Summary one.") (.ok "Summary two.")
    5 6 ⟨"c1", "Demo", "active", none, 0, none, none⟩ (by rfl) (by decide)

/-- C5: for an existing message in any reachable store, toggling the same
reaction symbol twice succeeds both times and returns the message's
reaction set (as an unordered set, i.e. up to permutation) to its state
before the first application, both in the returned value and in the store. -/
theorem reaction_toggle_involutive (s : Store) (mid r : String)
    (h : Reachable s) (msg : Message)
    (hfind : s.messages.find? (fun m => m.id == mid) = some msg) :
    ∃ s1 s2,
      react_to_message s mid r = (.ok (toggleReaction r msg.reactions), s1)
      ∧ react_to_message s1 mid r =
          (.ok (toggleReaction r (toggleReaction r msg.reactions)), s2)
      ∧ (toggleReaction r (toggleReaction r msg.reactions)).Perm msg.reactions
      ∧ s2.messages.find? (fun m => m.id == mid) =
          some (setReactions (toggleReaction r (toggleReaction r msg.reactions)) msg) := by
  have hp := List.find?_some hfind
  have hnodup : msg.reactions.Nodup :=
    (reachable_StoreInv h).2 msg (List.mem_of_find?_eq_some hfind)
  have h1 : react_to_message s mid r =
      (.ok (toggleReaction r msg.reactions),
       ⟨s.conversations,
        updateFirst (fun m => m.id == mid)
          (setReactions (toggleReaction r msg.reactions)) s.messages⟩) := by
    unfold react_to_message
    rw [hfind]
  have h2 : (updateFirst (fun m => m.id == mid)
      (setReactions (toggleReaction r msg.reactions)) s.messages).find?
        (fun m => m.id == mid) =
      some (setReactions (toggleReaction r msg.reactions) msg) :=
    find?_updateFirst hfind hp
  have h3 : react_to_message
      ⟨s.conversations,
       updateFirst (fun m => m.id == mid)
         (setReactions (toggleReaction r msg.reactions)) s.messages⟩ mid r =
      (.ok (toggleReaction r (toggleReaction r msg.reactions)),
       ⟨s.conversations,
        updateFirst (fun m => m.id == mid)
          (setReactions (toggleReaction r (toggleReaction r msg.reactions)))
          (updateFirst (fun m => m.id == mid)
            (setReactions (toggleReaction r msg.reactions)) s.messages)⟩) := by
    unfold react_to_message
    rw [h2]
    rfl
  have h4 : (updateFirst (fun m => m.id == mid)
      (setReactions (toggleReaction r (toggleReaction r msg.reactions)))
      (updateFirst (fun m => m.id == mid)
        (setReactions (toggleReaction r msg.reactions)) s.messages)).find?
        (fun m => m.id == mid) =
      some (setReactions (toggleReaction r (toggleReaction r msg.reactions))
        (setReactions (toggleReaction r msg.reactions) msg)) :=
    find?_updateFirst h2 hp
  exact ⟨_, _, h1, h3, toggleReaction_twice_perm r msg.reactions hnodup, h4⟩

/-- Witness for C5: toggling "👍" twice on message `m1` of `demoStore`. -/
theorem reaction_toggle_involutive_witness :
    ∃ s1 s2,
      react_to_message demoStore "m1" "👍" = (.ok (toggleReaction "👍" []), s1)
      ∧ react_to_message s1 "m1" "👍" =
          (.ok (toggleReaction "👍" (toggleReaction "👍" [])), s2)
      ∧ (toggleReaction "👍" (toggleReaction "👍" [])).Perm ([] : List String)
      ∧ s2.messages.find? (fun m => m.id == "m1") =
          some (setReactions (toggleReaction "👍" (toggleReaction "👍" []))
            ⟨"m1", "c1", "user", "Hello", 1, [], false⟩) :=
  reaction_toggle_involutive demoStore "m1" "👍" demoStore_reachable
    ⟨"m1", "c1", "user", "Hello", 1, [], false⟩ rfl

theorem insertByTimestamp_perm (m : Message) (l : List Message) :
    (insertByTimestamp m l).Perm (m :: l) := by
  induction l with
  | nil => exact List.Perm.refl _
  | cons x xs ih =>
    unfold insertByTimestamp
    by_cases hc : m.timestamp ≤ x.timestamp
    · rw [if_pos hc]
    · rw [if_neg hc]
      exact (ih.cons x).trans (List.Perm.swap m x xs)

theorem insertByTimestamp_sorted (m : Message) (l : List Message)
    (h : l.Pairwise (fun a b => a.timestamp ≤ b.timestamp)) :
    (insertByTimestamp m l).Pairwise (fun a b => a.timestamp ≤ b.timestamp) := by
  induction l with
  | nil => simp [insertByTimestamp]
  | cons x xs ih =>
    rw [List.pairwise_cons] at h
    obtain ⟨hx, hxs⟩ := h
    unfold insertByTimestamp
    by_cases hc : m.timestamp ≤ x.timestamp
    · rw [if_pos hc]
      rw [List.pairwise_cons]
      refine ⟨?_, List.pairwise_cons.mpr ⟨hx, hxs⟩⟩
      intro b hb
      rcases List.mem_cons.1 hb with rfl | hb
      · exact hc
      · exact le_trans hc (hx b hb)
    · rw [if_neg hc]
      rw [List.pairwise_cons]
      refine ⟨?_, ih hxs⟩
      intro b hb
      rcases List.mem_cons.1 ((insertByTimestamp_perm m xs).mem_iff.1 hb) with rfl | hb
      · exact le_of_not_le hc
      · exact hx b hb

theorem sortByTimestamp_perm (l : List Message) : (sortByTimestamp l).Perm l := by
  induction l with
  | nil => exact List.Perm.refl _
  | cons m rest ih =>
    exact (insertByTimestamp_perm m (sortByTimestamp rest)).trans (ih.cons m)

theorem sortByTimestamp_sorted (l : List Message) :
    (sortByTimestamp l).Pairwise (fun a b => a.timestamp ≤ b.timestamp) := by
  induction l with
  | nil => exact List.Pairwise.nil
  | cons m rest ih => exact insertByTimestamp_sorted m _ ih

theorem insertByStartTimeDesc_perm (c : Conversation) (l : List Conversation) :
    (insertByStartTimeDesc c l).Perm (c :: l) := by
  induction l with
  | nil => exact List.Perm.refl _
  | cons x xs ih =>
    unfold insertByStartTimeDesc
    by_cases hc : x.start_time < c.start_time
    · rw [if_pos hc]
    · rw [if_neg hc]
      exact (ih.cons x).trans (List.Perm.swap c x xs)

theorem sortByStartTimeDesc_perm (l : List Conversation) :
    (sortByStartTimeDesc l).Perm l := by
  induction l with
  | nil => exact List.Perm.refl _
  | cons c rest ih =>
    exact (insertByStartTimeDesc_perm c (sortByStartTimeDesc rest)).trans (ih.cons c)

theorem readMessages_sorted (s : Store) (cid : String) :
    (readMessages s cid).Pairwise (fun a b => a.timestamp ≤ b.timestamp) :=
  sortByTimestamp_sorted _

theorem get_conversation_ok_messages (s : Store) (cid : String)
    (llm : Except String String) (res : ConversationWithMessages)
    (h : get_conversation s cid llm = .ok res) :
    res.messages = readMessages s cid := by
  unfold get_conversation at h
  split at h
  · exact absurd h (by simp)
  · injection h with h
    subst h
    rfl

theorem get_shared_conversation_ok_messages (s : Store) (tok : String)
    (conv : Conversation) (msgs : List Message)
    (h : get_shared_conversation s tok = .ok (conv, msgs)) :
    msgs = readMessages s conv.id := by
  unfold get_shared_conversation at h
  split at h
  · exact absurd h (by simp)
  · injection h with h
    rw [Prod.mk.injEq] at h
    obtain ⟨hconv, hmsgs⟩ := h
    subst hconv
    subst hmsgs
    rfl

theorem export_conversation_json_messages (s : Store) (cid : String)
    (conv : Conversation) (msgs : List Message)
    (h : export_conversation s cid "json" = .ok (.json conv msgs)) :
    msgs = readMessages s cid := by
  unfold export_conversation at h
  split at h
  · exact absurd h (by simp)
  · simp only [show (("json" == "json") = true) from rfl, if_true] at h
    injection h with h
    injection h with _ hmsgs
    subst hmsgs
    rfl

/-- C6: every read operation that returns a message list — get by id, get
by share token, and export — returns it in non-decreasing
creation-timestamp order. -/
theorem read_operations_sorted (s : Store) (cid tok : String)
    (llm : Except String String) :
    (∀ res, get_conversation s cid llm = .ok res →
        res.messages.Pairwise (fun a b => a.timestamp ≤ b.timestamp))
    ∧ (∀ conv msgs, get_shared_conversation s tok = .ok (conv, msgs) →
        msgs.Pairwise (fun a b => a.timestamp ≤ b.timestamp))
    ∧ (∀ conv msgs, export_conversation s cid "json" = .ok (.json conv msgs) →
        msgs.Pairwise (fun a b => a.timestamp ≤ b.timestamp)) := by
  refine ⟨?_, ?_, ?_⟩
  · intro res hres
    rw [get_conversation_ok_messages s cid llm res hres]
    exact readMessages_sorted s cid
  · intro conv msgs hres
    rw [get_shared_conversation_ok_messages s tok conv msgs hres]
    exact readMessages_sorted s conv.id
  · intro conv msgs hres
    rw [export_conversation_json_messages s cid conv msgs hres]
    exact readMessages_sorted s cid

/-- Witness for C6: the message list `get_conversation` returns on
`demoStore` is sorted by timestamp. -/
theorem read_operations_sorted_witness :
    (⟨⟨"c1", "Demo", "active", none, 0, none, none⟩,
      [⟨"m1", "c1", "user", "Hello", 1, [], false⟩,
       ⟨"m2", "c1", "assistant", "Hi there", 2, [], false⟩],
      ["x"]⟩ : ConversationWithMessages).messages.Pairwise
        (fun a b => a.timestamp ≤ b.timestamp) :=
  (read_operations_sorted demoStore "c1" "tok" (.ok "x")).1
    ⟨⟨"c1", "Demo", "active", none, 0, none, none⟩,
     [⟨"m1", "c1", "user", "Hello", 1, [], false⟩,
      ⟨"m2", "c1", "assistant", "Hi there", 2, [], false⟩],
     ["x"]⟩ (by rfl)

/-- C7: with zero ended conversations, the cross-session query returns the
fixed "No past conversations found to analyze." answer with empty
reference and suggestion lists and sends no prompt to the LLM gateway;
otherwise its reference list is the first 5 ended conversations in store
iteration order. -/
theorem query_conversations_behavior (s : Store) (q : String)
    (llm : Except String String) :
    ((∀ c ∈ s.conversations, c.status ≠ "ended") →
      query_conversations s q llm =
        (⟨"No past conversations found to analyze.", [], []⟩, []))
    ∧ (s.conversations.filter (fun c => c.status == "ended") ≠ [] →
      (query_conversations s q llm).1.relevant_conversations =
        (s.conversations.filter (fun c => c.status == "ended")).take 5) := by
  constructor
  · intro h
    have hfilter : s.conversations.filter (fun c => c.status == "ended") = [] :=
      List.filter_eq_nil_iff.mpr (fun c hc => by simpa using h c hc)
    unfold query_conversations queryEnded
    rw [hfilter]
    rfl
  · intro h
    have hne : queryEnded s ≠ [] := by
      unfold queryEnded
      rw [Ne, List.take_eq_nil_iff]
      push_neg
      exact ⟨by norm_num, h⟩
    have hempty : (queryEnded s).isEmpty = false := by
      rcases hq : queryEnded s with _ | ⟨a, l⟩
      · exact absurd hq hne
      · rfl
    unfold query_conversations
    simp only [hempty, Bool.false_eq_true, if_false]
    unfold queryEnded
    rw [List.take_take]
    norm_num

/-- Witness for C7: on `demoStore` (no ended conversation) the fixed answer
with no LLM prompt; on `endedStore` the reference list is the first 5
ended conversations. -/
theorem query_conversations_behavior_witness :
    query_conversations demoStore "what did we discuss" (.ok "ans") =
      (⟨"No past conversations found to analyze.", [], []⟩, [])
    ∧ (query_conversations endedStore "what did we discuss" (.ok "ans")).1.relevant_conversations =
        (endedStore.conversations.filter (fun c => c.status == "ended")).take 5 :=
  ⟨(query_conversations_behavior demoStore "what did we discuss" (.ok "ans")).1
      (by decide),
   (query_conversations_behavior endedStore "what did we discuss" (.ok "ans")).2
      (by decide)⟩

/-- C8: the suggestion generator returns at most 3 strings; an empty
history yields the three fixed defaults with no LLM prompt sent; a failing
LLM yields `[]`; a successful completion is parsed by `parseSuggestions`
(split on line breaks, strip, drop blanks and `#`-lines, take 3). -/
theorem generate_suggestions_behavior (history : List (String × String))
    (llm : Except String String) :
    (generate_suggestions history llm).1.length ≤ 3
    ∧ (history = [] → generate_suggestions history llm = (defaultSuggestions, []))
    ∧ (∀ e, history ≠ [] → llm = .error e →
        (generate_suggestions history llm).1 = [])
    ∧ (∀ resp, history ≠ [] → llm = .ok resp →
        (generate_suggestions history llm).1 = parseSuggestions resp) := by
  cases history with
  | nil =>
    refine ⟨le_refl 3, fun _ => rfl, ?_, ?_⟩
    · intro e hne _
      exact absurd rfl hne
    · intro resp hne _
      exact absurd rfl hne
  | cons hd tl =>
    cases llm with
    | ok resp =>
      refine ⟨List.length_take_le 3 _, ?_, ?_, ?_⟩
      · intro hh
        exact absurd hh (by simp)
      · intro e _ heq
        exact absurd heq (by simp)
      · intro resp' _ heq
        injection heq with heq
        subst heq
        rfl
    | error e =>
      refine ⟨Nat.zero_le 3, ?_, ?_, ?_⟩
      · intro hh
        exact absurd hh (by simp)
      · intro e' _ heq
        rfl
      · intro resp _ heq
        exact absurd heq (by simp)

/-- Witness for C8 at concrete histories and LLM outcomes. -/
theorem generate_suggestions_behavior_witness :
    (generate_suggestions [("user", "a")] (.ok "q1\nq2\nq3\nq4")).1.length ≤ 3
    ∧ generate_suggestions [] (.ok "x") = (defaultSuggestions, [])
    ∧ (generate_suggestions [("user", "a")] (.error "boom")).1 = []
    ∧ (generate_suggestions [("user", "a")] (.ok "l1\nl2")).1 =
        parseSuggestions "l1\nl2" :=
  ⟨(generate_suggestions_behavior [("user", "a")] (.ok "q1\nq2\nq3\nq4")).1,
   (generate_suggestions_behavior [] (.ok "x")).2.1 rfl,
   (generate_suggestions_behavior [("user", "a")] (.error "boom")).2.2.1 "boom"
     (by simp) rfl,
   (generate_suggestions_behavior [("user", "a")] (.ok "l1\nl2")).2.2.2 "l1\nl2"
     (by simp) rfl⟩

/-- C9 counterexample: on `demoStore`, exporting the existing conversation
`c1` with the format selector `"document"` — an element of the set the
claim says is accepted — fails with InvalidArgument (400,
"Invalid export format"); the code's accepted selectors are `"json"`,
`"markdown"` and `"pdf"`, not `"document"`. -/
theorem export_document_format_rejected :
    export_conversation demoStore "c1" "document" =
      .error ⟨400, "Invalid export format"⟩ := rfl

/-- C9 (amended): for every existing conversation, export with a format
selector outside {json, markdown, pdf} — in particular "xml" — fails with
InvalidArgument, and a selector inside that set never fails with
InvalidArgument. -/
theorem export_format_validation (s : Store) (cid fmt : String)
    (conv : Conversation)
    (hfind : s.conversations.find? (fun c => c.id == cid) = some conv) :
    (fmt ≠ "json" → fmt ≠ "markdown" → fmt ≠ "pdf" →
      export_conversation s cid fmt = .error ⟨400, "Invalid export format"⟩)
    ∧ (fmt = "json" ∨ fmt = "markdown" ∨ fmt = "pdf" →
      ∃ r, export_conversation s cid fmt = .ok r) := by
  constructor
  · intro h1 h2 h3
    have hc1 : (fmt == "json") = false := by simp [h1]
    have hc2 : (fmt == "markdown") = false := by simp [h2]
    have hc3 : (fmt == "pdf") = false := by simp [h3]
    unfold export_conversation
    rw [hfind]
    simp [hc1, hc2, hc3]
  · intro h
    unfold export_conversation
    rw [hfind]
    rcases h with rfl | rfl | rfl
    · exact ⟨_, rfl⟩
    · exact ⟨_, rfl⟩
    · exact ⟨_, rfl⟩

/-- Witness for C9 (amended): "xml" is rejected with InvalidArgument while
"json" succeeds, on the existing conversation of `demoStore`. -/
theorem export_format_validation_witness :
    export_conversation demoStore "c1" "xml" =
      .error ⟨400, "Invalid export format"⟩
    ∧ ∃ r, export_conversation demoStore "c1" "json" = .ok r :=
  ⟨(export_format_validation demoStore "c1" "xml"
      ⟨"c1", "Demo", "active", none, 0, none, none⟩ rfl).1
      (by decide) (by decide) (by decide),
   (export_format_validation demoStore "c1" "json"
      ⟨"c1", "Demo", "active", none, 0, none, none⟩ rfl).2 (Or.inl rfl)⟩

/-- C10: every store read is capped at 1000 records: the conversation list
and the cross-session query consider at most the first 1000 matching
conversation records, and each message read (`readMessages`, used by get,
get-by-share-token, export, reply generation and summarization) considers
at most the first 1000 messages of the conversation, silently omitting
records beyond the cap. -/
theorem store_reads_capped (s : Store) (cid tok : String)
    (llm : Except String String) :
    (get_conversations s).length ≤ 1000
    ∧ (get_conversations s).Perm (s.conversations.take 1000)
    ∧ (readMessages s cid).Perm
        ((s.messages.filter (fun m => m.conversation_id == cid)).take 1000)
    ∧ (readMessages s cid).length ≤ 1000
    ∧ (queryEnded s).length ≤ 1000
    ∧ ((s.conversations.filter (fun c => c.status == "ended")).length ≤ 1000 →
        queryEnded s = s.conversations.filter (fun c => c.status == "ended"))
    ∧ (∀ res, get_conversation s cid llm = .ok res → res.messages.length ≤ 1000)
    ∧ (∀ conv msgs, get_shared_conversation s tok = .ok (conv, msgs) →
        msgs.length ≤ 1000)
    ∧ (∀ conv msgs, export_conversation s cid "json" = .ok (.json conv msgs) →
        msgs.length ≤ 1000) := by
  have hconvperm : (get_conversations s).Perm (s.conversations.take 1000) :=
    sortByStartTimeDesc_perm _
  have hmsgperm : ∀ c : String, (readMessages s c).Perm
      ((s.messages.filter (fun m => m.conversation_id == c)).take 1000) :=
    fun c => sortByTimestamp_perm _
  have hmsglen : ∀ c : String, (readMessages s c).length ≤ 1000 := by
    intro c
    rw [(hmsgperm c).length_eq]
    exact List.length_take_le 1000 _
  refine ⟨?_, hconvperm, hmsgperm cid, hmsglen cid, ?_, ?_, ?_, ?_, ?_⟩
  · rw [hconvperm.length_eq]
    exact List.length_take_le 1000 _
  · exact List.length_take_le 1000 _
  · intro h
    exact List.take_of_length_le h
  · intro res hres
    rw [get_conversation_ok_messages s cid llm res hres]
    exact hmsglen cid
  · intro conv msgs hres
    rw [get_shared_conversation_ok_messages s tok conv msgs hres]
    exact hmsglen conv.id
  · intro conv msgs hres
    rw [export_conversation_json_messages s cid conv msgs hres]
    exact hmsglen cid

/-- Witness for C10: the capped reads evaluated on `demoStore`. -/
theorem store_reads_capped_witness :
    queryEnded demoStore = demoStore.conversations.filter (fun c => c.status == "ended")
    ∧ (⟨⟨"c1", "Demo", "active", none, 0, none, none⟩,
        [⟨"m1", "c1", "user", "Hello", 1, [], false⟩,
         ⟨"m2", "c1", "assistant", "Hi there", 2, [], false⟩],
        ["x"]⟩ : ConversationWithMessages).messages.length ≤ 1000 :=
  ⟨(store_reads_capped demoStore "c1" "tok" (.ok "x")).2.2.2.2.2.1 (by decide),
   (store_reads_capped demoStore "c1" "tok" (.ok "x")).2.2.2.2.2.2.1
     ⟨⟨"c1", "Demo", "active", none, 0, none, none⟩,
      [⟨"m1", "c1", "user", "Hello", 1, [], false⟩,
       ⟨"m2", "c1", "assistant", "Hi there", 2, [], false⟩],
      ["x"]⟩ (by rfl)⟩

end ChatPortal
